import Mathlib

/-!
Verification of the Portfolio Ledger Engine (`src/trading/portfolio.py`).

A shallow embedding of the paper-trading portfolio manager: the `Portfolio`
class with its order lifecycle (`create_order`, `execute_order`), position
book (`_update_position`), and trade recorder (`_close_position`), together
with the pydantic data models of `src/models/trade.py` and
`src/models/base.py`.

Python floats are modelled as exact rationals (`ℚ`).  Python exceptions
(`ZeroDivisionError` from float division by zero, pydantic's
`ValidationError` raised when a model is constructed with a field value
violating its declared bound) are modelled explicitly: each state-mutating
operation returns the portfolio state as mutated up to the point of the
raise, paired with an optional error, mirroring the fact that CPython
in-place mutations performed before an exception persist after it
propagates.
-/

namespace PortfolioLedger

/-- The `OrderType` enum from `src/models/base.py`. -/
inductive OrderType
  | market
  | limit
deriving DecidableEq, Repr

/-- The `OrderStatus` enum from `src/models/base.py`. -/
inductive OrderStatus
  | pending
  | filled
  | cancelled
  | rejected
deriving DecidableEq, Repr

/-- The `PositionSide` enum from `src/models/base.py` (`LONG`, `SHORT`, `NONE`;
`NONE` is rendered `sideNone`). -/
inductive PositionSide
  | long
  | short
  | sideNone
deriving DecidableEq, Repr

/-- The `Order` model from `src/models/trade.py`.  Timestamp fields
(`created_at`, `filled_at`) are irrelevant to the ledger arithmetic and are
omitted; `order_id` is modelled as the order's index in the portfolio's
order history, which is unique just as the uuid-based string id is.
pydantic declares `quantity` with `gt=0` and `limit_price`/`filled_price`
with `gt=0` (checked at construction only; the class does not enable
validate_assignment, so later attribute assignments are unchecked). -/
structure Order where
  order_id : Nat
  algorithm_id : String
  symbol : String
  order_type : OrderType
  side : PositionSide
  quantity : ℚ
  limit_price : Option ℚ
  filled_price : Option ℚ
  status : OrderStatus
  commission : ℚ
  slippage : ℚ
deriving DecidableEq, Repr

/-- The `Position` model from `src/models/trade.py` (the fields the ledger
reads and writes; the optional mark-to-market fields and timestamps are
omitted).  pydantic declares `quantity` and `average_price` with `ge=0`,
checked at construction only. -/
structure Position where
  symbol : String
  algorithm_id : String
  side : PositionSide
  quantity : ℚ
  average_price : ℚ
deriving DecidableEq, Repr

/-- The `Trade` model from `src/models/trade.py` (timestamps and the uuid
string id omitted; order references modelled by the numeric order ids).
pydantic declares `entry_price`, `entry_quantity`, `exit_price`,
`exit_quantity` with `gt=0` and `total_commission`, `total_slippage` with
`ge=0`, checked at construction. -/
structure Trade where
  algorithm_id : String
  symbol : String
  entry_order_id : Nat
  entry_price : ℚ
  entry_quantity : ℚ
  exit_order_id : Nat
  exit_price : ℚ
  exit_quantity : ℚ
  gross_pnl : ℚ
  net_pnl : ℚ
  pnl_percent : ℚ
  total_commission : ℚ
  total_slippage : ℚ
  is_open : Bool
deriving DecidableEq, Repr

/-- Python exceptions that the embedded code can raise:
`ZeroDivisionError` from `/` with a zero denominator, and pydantic's
`ValidationError` from constructing a model with an out-of-bound field. -/
inductive PyError
  | zeroDivision
  | validationError
deriving DecidableEq, Repr

/-- The `Portfolio` object state (`src/trading/portfolio.py`, `__init__`):
cash, rates, the position dict keyed by the string `"algorithm_id:symbol"`,
the order history, the trade history and the cumulative cost counters.
The dict is modelled as an insertion-ordered association list with unique
keys, matching CPython dict semantics. -/
structure Portfolio where
  initial_capital : ℚ
  cash : ℚ
  commission_rate : ℚ
  slippage_rate : ℚ
  positions : List (String × Position)
  orders : List Order
  trades : List Trade
  peak_value : ℚ
  total_commissions : ℚ
  total_slippage : ℚ
deriving DecidableEq, Repr

/-- Constructor `Portfolio.__init__(initial_capital, commission_rate, slippage_rate)`. -/
def mkPortfolio (initial_capital commission_rate slippage_rate : ℚ) : Portfolio :=
  { initial_capital := initial_capital
    cash := initial_capital
    commission_rate := commission_rate
    slippage_rate := slippage_rate
    positions := []
    orders := []
    trades := []
    peak_value := initial_capital
    total_commissions := 0
    total_slippage := 0 }

/-- Python `dict.get(key)` on the position book. -/
def dictGet (ps : List (String × Position)) (k : String) : Option Position :=
  match ps with
  | [] => Option.none
  | e :: rest => if e.1 = k then some e.2 else dictGet rest k

/-- Python `dict[key] = value` on the position book: replace in place, else append
(CPython dicts keep insertion order). -/
def dictSet (ps : List (String × Position)) (k : String) (v : Position) :
    List (String × Position) :=
  match ps with
  | [] => [(k, v)]
  | e :: rest => if e.1 = k then (k, v) :: rest else e :: dictSet rest k v

/-- Python `del dict[key]` on the position book. -/
def dictDel (ps : List (String × Position)) (k : String) : List (String × Position) :=
  match ps with
  | [] => []
  | e :: rest => if e.1 = k then rest else e :: dictDel rest k

/-- The composite position key `f"{algorithm_id}:{symbol}"` used at
`portfolio.py` lines 75 and 220. -/
def posKey (algorithm_id symbol : String) : String :=
  algorithm_id ++ ":" ++ symbol

/-- Method `Portfolio.get_position(symbol, algorithm_id)` (`portfolio.py` 64-76). -/
def Portfolio.get_position (st : Portfolio) (symbol algorithm_id : String) :
    Option Position :=
  dictGet st.positions (posKey algorithm_id symbol)

/-- The pydantic bound `gt=0` on an optional field: `None` passes, a present
value must be strictly positive. -/
def optPosOk : Option ℚ → Bool
  | Option.none => true
  | some x => decide (0 < x)

/-- Method `Portfolio.create_order` (`portfolio.py` 96-135): constructs a PENDING
`Order` and appends it to the order history, returning it (here: its index).
Constructing the pydantic `Order` validates `quantity > 0` and
`limit_price > 0` when present; a violation raises `ValidationError`
before anything is appended. -/
def Portfolio.create_order (st : Portfolio) (symbol algorithm_id : String)
    (side : PositionSide) (quantity : ℚ) (order_type : OrderType)
    (limit_price : Option ℚ) : Portfolio × Except PyError Nat :=
  if 0 < quantity ∧ optPosOk limit_price = true then
    let order : Order :=
      { order_id := st.orders.length
        algorithm_id := algorithm_id
        symbol := symbol
        order_type := order_type
        side := side
        quantity := quantity
        limit_price := limit_price
        filled_price := Option.none
        status := OrderStatus.pending
        commission := 0
        slippage := 0 }
    ({ st with orders := st.orders ++ [order] }, Except.ok st.orders.length)
  else
    (st, Except.error PyError.validationError)

/-- The entry-order scan of `Portfolio._close_position` (`portfolio.py`
263-273): the most recent FILLED buy order in `self.orders` for the given
symbol and algorithm. -/
def findEntryOrder (orders : List Order) (symbol algorithm_id : String) :
    Option Order :=
  orders.reverse.find? fun o =>
    decide (o.symbol = symbol) && decide (o.algorithm_id = algorithm_id) &&
    decide (o.side = PositionSide.long) && decide (o.status = OrderStatus.filled)

/-- Method `Portfolio._close_position(exit_order, position)` (`portfolio.py`
255-309).  Computes gross and net P&L from the position as it stands when
called (its quantity has already been decremented by the caller), then
`pnl_percent = gross_pnl / (average_price * quantity) * 100` — a Python
float division that raises `ZeroDivisionError` when the denominator is
zero — then constructs the pydantic `Trade` (whose field bounds are
validated) and appends it.  If no entry order is found, it logs and
returns without recording anything. -/
def Portfolio.close_position (st : Portfolio) (exit_order : Order)
    (position : Position) : Portfolio × Option PyError :=
  match findEntryOrder st.orders position.symbol position.algorithm_id with
  | Option.none => (st, Option.none)
  | some entry_order =>
    let gross_pnl := (exit_order.filled_price.getD 0 - position.average_price) *
      position.quantity
    let net_pnl := gross_pnl - (entry_order.commission + exit_order.commission +
      entry_order.slippage + exit_order.slippage)
    if position.average_price * position.quantity = 0 then
      (st, some PyError.zeroDivision)
    else
      let pnl_percent := gross_pnl / (position.average_price * position.quantity) * 100
      let total_commission := entry_order.commission + exit_order.commission
      let total_slippage := entry_order.slippage + exit_order.slippage
      if 0 < position.average_price ∧ 0 < position.quantity ∧
          0 < exit_order.filled_price.getD 0 ∧
          0 ≤ total_commission ∧ 0 ≤ total_slippage then
        let trade : Trade :=
          { algorithm_id := position.algorithm_id
            symbol := position.symbol
            entry_order_id := entry_order.order_id
            entry_price := position.average_price
            entry_quantity := position.quantity
            exit_order_id := exit_order.order_id
            exit_price := exit_order.filled_price.getD 0
            exit_quantity := position.quantity
            gross_pnl := gross_pnl
            net_pnl := net_pnl
            pnl_percent := pnl_percent
            total_commission := total_commission
            total_slippage := total_slippage
            is_open := false }
        ({ st with trades := st.trades ++ [trade] }, Option.none)
      else
        (st, some PyError.validationError)

/-- Method `Portfolio._update_position(order)` (`portfolio.py` 213-253).  A buy
opens or grows the position under the order's key (constructing a new
pydantic `Position` validates its field bounds; growing an existing one
mutates attributes in place, unchecked — and the in-place average-price
update `total_cost / position.quantity` divides by the already-incremented
quantity, raising if it is zero).  A sell with no position logs and
returns; otherwise the quantity is decremented in place, and if the result
is ≤ 0 the position is handed to `_close_position` and then deleted.  An
exception raised inside `_close_position` propagates with the decremented
position still in the book. -/
def Portfolio.update_position (st : Portfolio) (order : Order) :
    Portfolio × Option PyError :=
  let key := posKey order.algorithm_id order.symbol
  if order.side = PositionSide.long then
    match dictGet st.positions key with
    | Option.none =>
      if 0 ≤ order.quantity ∧ 0 ≤ order.filled_price.getD 0 then
        let newPos : Position :=
          { symbol := order.symbol
            algorithm_id := order.algorithm_id
            side := PositionSide.long
            quantity := order.quantity
            average_price := order.filled_price.getD 0 }
        ({ st with positions := dictSet st.positions key newPos }, Option.none)
      else
        (st, some PyError.validationError)
    | some position =>
      let total_cost := position.average_price * position.quantity +
        order.filled_price.getD 0 * order.quantity
      let newQty := position.quantity + order.quantity
      if newQty = 0 then
        let pos1 : Position := { position with quantity := newQty }
        ({ st with positions := dictSet st.positions key pos1 }, some PyError.zeroDivision)
      else
        let pos1 : Position :=
          { position with
            quantity := newQty
            average_price := total_cost / newQty
            side := PositionSide.long }
        ({ st with positions := dictSet st.positions key pos1 }, Option.none)
  else if order.side = PositionSide.short then
    match dictGet st.positions key with
    | Option.none => (st, Option.none)
    | some position =>
      let pos1 : Position := { position with quantity := position.quantity - order.quantity }
      let st1 : Portfolio := { st with positions := dictSet st.positions key pos1 }
      if pos1.quantity ≤ 0 then
        match st1.close_position order pos1 with
        | (st2, some e) => (st2, some e)
        | (st2, Option.none) =>
          ({ st2 with positions := dictDel st2.positions key }, Option.none)
      else
        (st1, Option.none)
  else
    (st, Option.none)

/-- The fill branch of `Portfolio.execute_order` (`portfolio.py` 167-211),
reached once the pending and limit checks have passed: compute the
slippage-adjusted execution price, trade value and commission; reject a
buy that current cash cannot cover; otherwise mark the order FILLED with
its fill price and costs, bump the cumulative counters, update the
position book, and finally move cash.  An exception raised by the position
update propagates after the order has been marked FILLED and the counters
bumped, but before cash is touched. -/
def Portfolio.fill_order (st : Portfolio) (i : Nat) (order : Order)
    (current_price : ℚ) : Portfolio × Except PyError Bool :=
  let slippage_amount := current_price * st.slippage_rate
  let execution_price :=
    if order.side = PositionSide.long then current_price + slippage_amount
    else current_price - slippage_amount
  let trade_value := execution_price * order.quantity
  let commission := trade_value * st.commission_rate
  if order.side = PositionSide.long ∧ st.cash < trade_value + commission then
    ({ st with orders := st.orders.set i { order with status := OrderStatus.rejected } },
     Except.ok false)
  else
    let filled : Order :=
      { order with
        filled_price := some execution_price
        commission := commission
        slippage := slippage_amount * order.quantity
        status := OrderStatus.filled }
    let st1 : Portfolio :=
      { st with
        orders := st.orders.set i filled
        total_commissions := st.total_commissions + commission
        total_slippage := st.total_slippage + slippage_amount * order.quantity }
    match st1.update_position filled with
    | (st2, some e) => (st2, Except.error e)
    | (st2, Option.none) =>
      if order.side = PositionSide.long then
        ({ st2 with cash := st2.cash - (trade_value + commission) }, Except.ok true)
      else
        ({ st2 with cash := st2.cash + (trade_value - commission) }, Except.ok true)

/-- Method `Portfolio.execute_order(order, current_price)` (`portfolio.py`
137-211).  The order argument is identified by its index in the order
history (orders are handed to `execute_order` exactly as returned by
`create_order`; an index outside the history corresponds to no call and
leaves the state unchanged).  Returns `false` without touching anything if
the order is not PENDING; rejects a LIMIT order with no limit price;
leaves an unmet LIMIT order PENDING (buy fills only at
`current_price ≤ limit`, sell only at `current_price ≥ limit`); otherwise
fills. -/
def Portfolio.execute_order (st : Portfolio) (i : Nat) (current_price : ℚ) :
    Portfolio × Except PyError Bool :=
  match st.orders.get? i with
  | Option.none => (st, Except.ok false)
  | some order =>
    if order.status ≠ OrderStatus.pending then
      (st, Except.ok false)
    else if order.order_type = OrderType.limit then
      match order.limit_price with
      | Option.none =>
        ({ st with orders := st.orders.set i { order with status := OrderStatus.rejected } },
         Except.ok false)
      | some lp =>
        if order.side = PositionSide.long ∧ lp < current_price then
          (st, Except.ok false)
        else if order.side = PositionSide.short ∧ current_price < lp then
          (st, Except.ok false)
        else
          st.fill_order i order current_price
    else
      st.fill_order i order current_price

/-- One caller-visible operation on the ledger: a `create_order` call or an
`execute_order` call (`main.py` drives the portfolio through exactly these
two calls). -/
inductive Call
  | create (symbol algorithm_id : String) (side : PositionSide) (quantity : ℚ)
      (order_type : OrderType) (limit_price : Option ℚ)
  | exec (i : Nat) (current_price : ℚ)

/-- The portfolio state after one call (the state as mutated, whether or
not the call raised). -/
def Portfolio.step (st : Portfolio) : Call → Portfolio
  | Call.create s a sd q t lp => (st.create_order s a sd q t lp).1
  | Call.exec i p => (st.execute_order i p).1

/-- The portfolio state after a sequence of calls. -/
def Portfolio.run (st : Portfolio) (calls : List Call) : Portfolio :=
  calls.foldl Portfolio.step st

/-! ## Dictionary lemmas -/

theorem dictGet_dictSet_self (ps : List (String × Position)) (k : String) (v : Position) :
    dictGet (dictSet ps k v) k = some v := by
  induction ps with
  | nil => simp [dictGet, dictSet]
  | cons e rest ih =>
    by_cases h : e.1 = k
    · simp [dictGet, dictSet, h]
    · simp [dictGet, dictSet, h, ih]

/-! ## Frame lemmas: which parts of the state each internal operation can touch -/

/-- Method `_close_position` only ever appends to the trade history. -/
theorem close_position_frame (st : Portfolio) (eo : Order) (pos : Position) :
    ∃ ts, (st.close_position eo pos).1 = { st with trades := ts } := by
  unfold Portfolio.close_position
  split
  · exact ⟨st.trades, rfl⟩
  · dsimp only
    split
    · exact ⟨st.trades, rfl⟩
    · split
      · exact ⟨_, rfl⟩
      · exact ⟨st.trades, rfl⟩

/-- Equation form of `close_position_frame`. -/
theorem close_position_frame2 {st st2 : Portfolio} {eo : Order} {pos : Position}
    {err : Option PyError} (h : st.close_position eo pos = (st2, err)) :
    ∃ ts, st2 = { st with trades := ts } := by
  obtain ⟨ts, hts⟩ := close_position_frame st eo pos
  rw [h] at hts
  exact ⟨ts, hts⟩

/-- Method `_update_position` only ever touches the position book and the trade
history. -/
theorem update_position_frame (st : Portfolio) (o : Order) :
    ∃ ps ts, (st.update_position o).1 = { st with positions := ps, trades := ts } := by
  unfold Portfolio.update_position
  by_cases hlong : o.side = PositionSide.long
  · rw [if_pos hlong]
    cases hget : dictGet st.positions (posKey o.algorithm_id o.symbol) with
    | none =>
      dsimp only
      split
      · exact ⟨_, st.trades, rfl⟩
      · exact ⟨st.positions, st.trades, rfl⟩
    | some position =>
      dsimp only
      split
      · exact ⟨_, st.trades, rfl⟩
      · exact ⟨_, st.trades, rfl⟩
  · rw [if_neg hlong]
    by_cases hshort : o.side = PositionSide.short
    · rw [if_pos hshort]
      cases hget : dictGet st.positions (posKey o.algorithm_id o.symbol) with
      | none => exact ⟨st.positions, st.trades, rfl⟩
      | some position =>
        dsimp only
        split
        · split
          next st2 e heq =>
            obtain ⟨ts, hts⟩ := close_position_frame2 heq
            subst hts
            exact ⟨_, ts, rfl⟩
          next st2 heq =>
            obtain ⟨ts, hts⟩ := close_position_frame2 heq
            subst hts
            exact ⟨_, ts, rfl⟩
        · exact ⟨_, st.trades, rfl⟩
    · rw [if_neg hshort]
      exact ⟨st.positions, st.trades, rfl⟩

theorem update_position_cash (st : Portfolio) (o : Order) :
    (st.update_position o).1.cash = st.cash := by
  obtain ⟨ps, ts, h⟩ := update_position_frame st o
  rw [h]

theorem update_position_orders (st : Portfolio) (o : Order) :
    (st.update_position o).1.orders = st.orders := by
  obtain ⟨ps, ts, h⟩ := update_position_frame st o
  rw [h]

theorem update_position_commission_rate (st : Portfolio) (o : Order) :
    (st.update_position o).1.commission_rate = st.commission_rate := by
  obtain ⟨ps, ts, h⟩ := update_position_frame st o
  rw [h]

theorem update_position_slippage_rate (st : Portfolio) (o : Order) :
    (st.update_position o).1.slippage_rate = st.slippage_rate := by
  obtain ⟨ps, ts, h⟩ := update_position_frame st o
  rw [h]

/-- Equation form of `update_position_frame`. -/
theorem update_position_frame2 {st st2 : Portfolio} {o : Order} {err : Option PyError}
    (h : st.update_position o = (st2, err)) :
    ∃ ps ts, st2 = { st with positions := ps, trades := ts } := by
  obtain ⟨ps, ts, hts⟩ := update_position_frame st o
  rw [h] at hts
  exact ⟨ps, ts, hts⟩

/-! ## The cash invariant (spec section 8, first testable property) -/

/-- The state predicate behind the cash invariant: non-negative cash,
rates that are genuine fractions (in `[0, 1]`), and an order history all
of whose orders have positive quantity — which is the only kind
`create_order` can append, thanks to the pydantic `gt=0` bound on
`Order.quantity`. -/
abbrev CashInv (st : Portfolio) : Prop :=
  0 ≤ st.cash ∧ 0 ≤ st.commission_rate ∧ st.commission_rate ≤ 1 ∧
    0 ≤ st.slippage_rate ∧ st.slippage_rate ≤ 1 ∧ ∀ o ∈ st.orders, 0 < o.quantity

/-- A call is well-formed when any supplied market price is positive (the
spec's price-feed contract is `current_price(symbol) -> float>0`). -/
def ValidCall : Call → Prop
  | Call.create _ _ _ _ _ _ => True
  | Call.exec _ p => 0 < p

instance : DecidablePred ValidCall := fun c => by
  cases c with
  | create s a sd q t lp => exact inferInstanceAs (Decidable True)
  | exec i p => exact inferInstanceAs (Decidable (0 < p))

theorem orders_set_pos {l : List Order} (i : Nat) {o : Order}
    (h : ∀ x ∈ l, 0 < x.quantity) (ho : 0 < o.quantity) :
    ∀ x ∈ l.set i o, 0 < x.quantity := by
  intro x hx
  rcases List.mem_or_eq_of_mem_set hx with hx' | rfl
  · exact h x hx'
  · exact ho

theorem fill_order_cashInv (st : Portfolio) (i : Nat) (order : Order) (p : ℚ)
    (h : CashInv st) (hp : 0 < p) (hq : 0 < order.quantity) :
    CashInv (st.fill_order i order p).1 := by
  obtain ⟨hcash, hcr0, hcr1, hsr0, hsr1, hords⟩ := h
  unfold Portfolio.fill_order
  dsimp only
  by_cases hside : order.side = PositionSide.long
  · simp only [hside, eq_self_iff_true, if_true, true_and]
    split
    next hlt =>
      exact ⟨hcash, hcr0, hcr1, hsr0, hsr1, orders_set_pos i hords hq⟩
    next hlt =>
      split
      next st2 e heq =>
        obtain ⟨ps, ts, hts⟩ := update_position_frame2 heq
        subst hts
        exact ⟨hcash, hcr0, hcr1, hsr0, hsr1, orders_set_pos i hords hq⟩
      next st2 heq =>
        obtain ⟨ps, ts, hts⟩ := update_position_frame2 heq
        subst hts
        refine ⟨?_, hcr0, hcr1, hsr0, hsr1, orders_set_pos i hords hq⟩
        dsimp only
        linarith [not_lt.1 hlt]
  · simp only [eq_false hside, false_and, if_false]
    split
    next st2 e heq =>
      obtain ⟨ps, ts, hts⟩ := update_position_frame2 heq
      subst hts
      exact ⟨hcash, hcr0, hcr1, hsr0, hsr1, orders_set_pos i hords hq⟩
    next st2 heq =>
      obtain ⟨ps, ts, hts⟩ := update_position_frame2 heq
      subst hts
      refine ⟨?_, hcr0, hcr1, hsr0, hsr1, orders_set_pos i hords hq⟩
      dsimp only
      have hep : 0 ≤ p - p * st.slippage_rate := by nlinarith
      have htv : 0 ≤ (p - p * st.slippage_rate) * order.quantity :=
        mul_nonneg hep hq.le
      nlinarith

theorem execute_order_cashInv (st : Portfolio) (i : Nat) (p : ℚ)
    (h : CashInv st) (hp : 0 < p) : CashInv (st.execute_order i p).1 := by
  unfold Portfolio.execute_order
  cases hget : st.orders.get? i with
  | none => exact h
  | some order =>
    have hq : 0 < order.quantity := h.2.2.2.2.2 order (List.get?_mem hget)
    dsimp only
    split
    · exact h
    · split
      · cases hlp : order.limit_price with
        | none =>
          exact ⟨h.1, h.2.1, h.2.2.1, h.2.2.2.1, h.2.2.2.2.1,
            orders_set_pos i h.2.2.2.2.2 hq⟩
        | some lp =>
          dsimp only
          split
          · exact h
          · split
            · exact h
            · exact fill_order_cashInv st i order p h hp hq
      · exact fill_order_cashInv st i order p h hp hq

theorem step_cashInv (st : Portfolio) (c : Call) (h : CashInv st) (hc : ValidCall c) :
    CashInv (st.step c) := by
  cases c with
  | create s a sd q t lp =>
    unfold Portfolio.step Portfolio.create_order
    dsimp only
    split
    next hcond =>
      refine ⟨h.1, h.2.1, h.2.2.1, h.2.2.2.1, h.2.2.2.2.1, ?_⟩
      intro o ho
      rcases List.mem_append.1 ho with ho' | ho'
      · exact h.2.2.2.2.2 o ho'
      · rw [List.mem_singleton.1 ho']
        exact hcond.1
    next => exact h
  | exec i p => exact execute_order_cashInv st i p h hc

theorem run_cashInv (calls : List Call) :
    ∀ st : Portfolio, CashInv st → (∀ c ∈ calls, ValidCall c) →
      CashInv (st.run calls) := by
  induction calls with
  | nil => intro st h _; exact h
  | cons c cs ih =>
    intro st h hc
    exact ih (st.step c) (step_cashInv st c h (hc c (List.mem_cons_self c cs)))
      fun d hd => hc d (List.mem_cons_of_mem c hd)

/-! ## The net-P&L identity (spec section 8, fourth testable property) -/

/-- Every recorded trade satisfies
`net_pnl = gross_pnl - total_commission - total_slippage`. -/
abbrev TradesOK (st : Portfolio) : Prop :=
  ∀ t ∈ st.trades, t.net_pnl = t.gross_pnl - t.total_commission - t.total_slippage

theorem close_position_tradesOK (st : Portfolio) (eo : Order) (pos : Position)
    (h : TradesOK st) : TradesOK (st.close_position eo pos).1 := by
  unfold Portfolio.close_position
  split
  · exact h
  · dsimp only
    split
    · exact h
    · split
      · intro t ht
        rcases List.mem_append.1 ht with h1 | h2
        · exact h t h1
        · rw [List.mem_singleton.1 h2]
          dsimp only
          ring
      · exact h

/-- Equation form of `close_position_tradesOK`. -/
theorem close_position_tradesOK2 {st st2 : Portfolio} {eo : Order} {pos : Position}
    {err : Option PyError} (hcp : st.close_position eo pos = (st2, err))
    (h : TradesOK st) : TradesOK st2 := by
  have h2 := close_position_tradesOK st eo pos h
  rw [hcp] at h2
  exact h2

theorem update_position_tradesOK (st : Portfolio) (o : Order) (h : TradesOK st) :
    TradesOK (st.update_position o).1 := by
  unfold Portfolio.update_position
  by_cases hlong : o.side = PositionSide.long
  · rw [if_pos hlong]
    cases hget : dictGet st.positions (posKey o.algorithm_id o.symbol) with
    | none =>
      dsimp only
      split
      · exact h
      · exact h
    | some position =>
      dsimp only
      split
      · exact h
      · exact h
  · rw [if_neg hlong]
    by_cases hshort : o.side = PositionSide.short
    · rw [if_pos hshort]
      cases hget : dictGet st.positions (posKey o.algorithm_id o.symbol) with
      | none => exact h
      | some position =>
        dsimp only
        split
        · split
          next st2 e heq =>
            have h2 := close_position_tradesOK2 heq h
            exact h2
          next st2 heq =>
            have h2 := close_position_tradesOK2 heq h
            exact h2
        · exact h
    · rw [if_neg hshort]
      exact h

/-- Equation form of `update_position_tradesOK`. -/
theorem update_position_tradesOK2 {st st2 : Portfolio} {o : Order}
    {err : Option PyError} (hup : st.update_position o = (st2, err))
    (h : TradesOK st) : TradesOK st2 := by
  have h2 := update_position_tradesOK st o h
  rw [hup] at h2
  exact h2

theorem fill_order_tradesOK (st : Portfolio) (i : Nat) (order : Order) (p : ℚ)
    (h : TradesOK st) : TradesOK (st.fill_order i order p).1 := by
  unfold Portfolio.fill_order
  dsimp only
  by_cases hside : order.side = PositionSide.long
  · simp only [hside, eq_self_iff_true, if_true, true_and]
    split
    · exact h
    · split
      next st2 e heq =>
        have h2 := update_position_tradesOK2 heq h
        exact h2
      next st2 heq =>
        have h2 := update_position_tradesOK2 heq h
        exact h2
  · simp only [eq_false hside, false_and, if_false]
    split
    next st2 e heq =>
      have h2 := update_position_tradesOK2 heq h
      exact h2
    next st2 heq =>
      have h2 := update_position_tradesOK2 heq h
      exact h2

theorem execute_order_tradesOK (st : Portfolio) (i : Nat) (p : ℚ)
    (h : TradesOK st) : TradesOK (st.execute_order i p).1 := by
  unfold Portfolio.execute_order
  cases hget : st.orders.get? i with
  | none => exact h
  | some order =>
    dsimp only
    split
    · exact h
    · split
      · cases hlp : order.limit_price with
        | none => exact h
        | some lp =>
          dsimp only
          split
          · exact h
          · split
            · exact h
            · exact fill_order_tradesOK st i order p h
      · exact fill_order_tradesOK st i order p h

theorem step_tradesOK (st : Portfolio) (c : Call) (h : TradesOK st) :
    TradesOK (st.step c) := by
  cases c with
  | create s a sd q t lp =>
    unfold Portfolio.step Portfolio.create_order
    dsimp only
    split
    · exact h
    · exact h
  | exec i p => exact execute_order_tradesOK st i p h

theorem run_tradesOK (calls : List Call) :
    ∀ st : Portfolio, TradesOK st → TradesOK (st.run calls) := by
  induction calls with
  | nil => intro st h; exact h
  | cons c cs ih => intro st h; exact ih (st.step c) (step_tradesOK st c h)

/-! ## Average-price accumulation (spec section 8, second testable property) -/

/-- A filled buy order carrying fill price `p` and quantity `q`, exactly as
`execute_order` hands one to `_update_position` (the cost fields play no
role in the position update and are zero here). -/
def buyFill (symbol algorithm_id : String) (q p : ℚ) : Order :=
  { order_id := 0
    algorithm_id := algorithm_id
    symbol := symbol
    order_type := OrderType.market
    side := PositionSide.long
    quantity := q
    limit_price := Option.none
    filled_price := some p
    status := OrderStatus.filled
    commission := 0
    slippage := 0 }

/-- Feed a sequence of (quantity, fill price) buy fills through
`_update_position` for one (strategy, symbol) key. -/
def applyBuys (st : Portfolio) (symbol algorithm_id : String)
    (l : List (ℚ × ℚ)) : Portfolio :=
  l.foldl (fun s qp => (s.update_position (buyFill symbol algorithm_id qp.1 qp.2)).1) st

/-- The position produced by buying `x.1` units at fill price `x.2` into
an existing position `pos` (`portfolio.py` 235-240). -/
def buyStepPos (pos : Position) (x : ℚ × ℚ) : Position :=
  { pos with
    quantity := pos.quantity + x.1
    average_price := (pos.average_price * pos.quantity + x.2 * x.1) / (pos.quantity + x.1)
    side := PositionSide.long }

/-- One buy fill into an existing position: quantity accumulates and the
average price becomes the weighted average, per `portfolio.py` 235-240. -/
theorem update_position_buy_step (symbol algorithm_id : String) (st : Portfolio)
    (pos : Position) (x : ℚ × ℚ)
    (hpos : dictGet st.positions (posKey algorithm_id symbol) = some pos)
    (hq : 0 < pos.quantity) (hx : 0 < x.1) :
    (st.update_position (buyFill symbol algorithm_id x.1 x.2)).1 =
      { st with positions :=
          dictSet st.positions (posKey algorithm_id symbol) (buyStepPos pos x) } := by
  have hne : pos.quantity + x.1 ≠ 0 := ne_of_gt (add_pos hq hx)
  unfold Portfolio.update_position buyFill buyStepPos
  simp only [hpos, Option.getD_some, eq_self_iff_true, if_true, if_neg hne]

theorem applyBuys_accum (symbol algorithm_id : String) (l : List (ℚ × ℚ))
    (hl : ∀ x ∈ l, 0 < x.1) :
    ∀ (st : Portfolio) (pos : Position),
      dictGet st.positions (posKey algorithm_id symbol) = some pos →
      0 < pos.quantity →
      ∃ pos', dictGet (applyBuys st symbol algorithm_id l).positions
            (posKey algorithm_id symbol) = some pos' ∧
          pos'.quantity = pos.quantity + (l.map Prod.fst).sum ∧
          pos'.average_price * pos'.quantity =
            pos.average_price * pos.quantity + (l.map fun x => x.1 * x.2).sum := by
  induction l with
  | nil =>
    intro st pos hpos hq
    refine ⟨pos, ?_, by simp, by simp⟩
    simpa [applyBuys] using hpos
  | cons x xs ih =>
    intro st pos hpos hq
    have hx : 0 < x.1 := hl x (List.mem_cons_self x xs)
    have hxs : ∀ y ∈ xs, 0 < y.1 := fun y hy => hl y (List.mem_cons_of_mem x hy)
    have hstep := update_position_buy_step symbol algorithm_id st pos x hpos hq hx
    have hget1 : dictGet ((st.update_position
        (buyFill symbol algorithm_id x.1 x.2)).1).positions
        (posKey algorithm_id symbol) = some (buyStepPos pos x) := by
      rw [hstep]
      exact dictGet_dictSet_self st.positions _ _
    obtain ⟨pos', hget', hqty, havg⟩ := ih hxs
      ((st.update_position (buyFill symbol algorithm_id x.1 x.2)).1) _ hget1
      (add_pos hq hx)
    refine ⟨pos', ?_, ?_, ?_⟩
    · simpa [applyBuys] using hget'
    · rw [hqty]
      simp only [buyStepPos, List.map_cons, List.sum_cons]
      ring
    · rw [havg]
      simp only [buyStepPos]
      rw [div_mul_cancel₀ _ (ne_of_gt (add_pos hq hx))]
      simp only [List.map_cons, List.sum_cons]
      ring

/-! ## Concrete scenarios -/

theorem keyAlgAAPL : posKey "alg" "AAPL" = "alg:AAPL" := by decide

/-- The spec section-8 closing scenario: capital $1000, zero commission and
slippage; buy 5 shares of AAPL at $100, then sell all 5 at $130. -/
def scnA0 : Portfolio := mkPortfolio 1000 0 0

def scnA1 : Portfolio :=
  (scnA0.create_order "AAPL" "alg" PositionSide.long 5 OrderType.market Option.none).1

def scnA2 : Portfolio := (scnA1.execute_order 0 100).1

def scnA3 : Portfolio :=
  (scnA2.create_order "AAPL" "alg" PositionSide.short 5 OrderType.market Option.none).1

def scnARes : Portfolio × Except PyError Bool := scnA3.execute_order 1 130

def ordBuyA : Order :=
  { order_id := 0
    algorithm_id := "alg"
    symbol := "AAPL"
    order_type := OrderType.market
    side := PositionSide.long
    quantity := 5
    limit_price := Option.none
    filled_price := Option.none
    status := OrderStatus.pending
    commission := 0
    slippage := 0 }

def ordSellA : Order :=
  { ordBuyA with order_id := 1, side := PositionSide.short }

def posA : Position :=
  { symbol := "AAPL"
    algorithm_id := "alg"
    side := PositionSide.long
    quantity := 5
    average_price := 100 }

def scnA1Val : Portfolio :=
  { initial_capital := 1000
    cash := 1000
    commission_rate := 0
    slippage_rate := 0
    positions := []
    orders := [ordBuyA]
    trades := []
    peak_value := 1000
    total_commissions := 0
    total_slippage := 0 }

def scnA2Val : Portfolio :=
  { scnA1Val with
    cash := 500
    positions := [("alg:AAPL", posA)]
    orders := [{ ordBuyA with filled_price := some 100, status := OrderStatus.filled }] }

def scnA3Val : Portfolio :=
  { scnA2Val with
    orders := [{ ordBuyA with filled_price := some 100, status := OrderStatus.filled },
      ordSellA] }

/-- The state in which the exact full close leaves the ledger: both orders
FILLED, cash untouched by the sell, and a zero-quantity position stranded
in the book. -/
def scnAFinal : Portfolio :=
  { scnA3Val with
    orders := [{ ordBuyA with filled_price := some 100, status := OrderStatus.filled },
      { ordSellA with filled_price := some 130, status := OrderStatus.filled }]
    positions := [("alg:AAPL", { posA with quantity := 0 })] }

theorem scnA1_eq : scnA1 = scnA1Val := by
  norm_num +decide [scnA1, scnA0, mkPortfolio, Portfolio.create_order, optPosOk,
    scnA1Val, ordBuyA]

theorem scnA2_eq : scnA2 = scnA2Val := by
  norm_num +decide [scnA2, scnA1_eq, Portfolio.execute_order, Portfolio.fill_order,
    Portfolio.update_position, Portfolio.close_position, findEntryOrder, dictGet,
    dictSet, dictDel, keyAlgAAPL, optPosOk, scnA1Val, scnA2Val, ordBuyA, posA]

theorem scnA3_eq : scnA3 = scnA3Val := by
  norm_num +decide [scnA3, scnA2_eq, Portfolio.create_order, optPosOk,
    scnA2Val, scnA3Val, ordBuyA, ordSellA, posA]

theorem scnARes_eq : scnARes = (scnAFinal, Except.error PyError.zeroDivision) := by
  norm_num +decide [scnARes, scnA3_eq, Portfolio.execute_order, Portfolio.fill_order,
    Portfolio.update_position, Portfolio.close_position, findEntryOrder,
    List.reverse_cons, List.reverse_nil, List.nil_append, List.cons_append,
    List.append_nil, List.find?_cons_of_pos, List.find?_cons_of_neg, List.find?_nil,
    dictGet, dictSet, dictDel, keyAlgAAPL, optPosOk,
    scnA1Val, scnA2Val, scnA3Val, scnAFinal, ordBuyA, ordSellA, posA]

/-- Scenario with a real commission rate (0.1%): capital $1000, buy 5 at
$100, then sell all 5 at $130.  Exhibits the broken-atomicity state: the
sell order is FILLED and the commission counter bumped, but the raise
prevents the cash update and the position removal. -/
def scnB0 : Portfolio := mkPortfolio 1000 (1/1000) 0

def scnB1 : Portfolio :=
  (scnB0.create_order "AAPL" "alg" PositionSide.long 5 OrderType.market Option.none).1

def scnB2 : Portfolio := (scnB1.execute_order 0 100).1

def scnB3 : Portfolio :=
  (scnB2.create_order "AAPL" "alg" PositionSide.short 5 OrderType.market Option.none).1

def scnBRes : Portfolio × Except PyError Bool := scnB3.execute_order 1 130

def ordBuyBF : Order :=
  { ordBuyA with
    filled_price := some 100
    status := OrderStatus.filled
    commission := 1/2 }

def ordSellBF : Order :=
  { ordSellA with
    filled_price := some 130
    status := OrderStatus.filled
    commission := 13/20 }

def scnB1Val : Portfolio := { scnA1Val with commission_rate := 1/1000 }

def scnB2Val : Portfolio :=
  { scnB1Val with
    cash := 999/2
    positions := [("alg:AAPL", posA)]
    orders := [ordBuyBF]
    total_commissions := 1/2 }

def scnB3Val : Portfolio := { scnB2Val with orders := [ordBuyBF, ordSellA] }

def scnBFinal : Portfolio :=
  { scnB3Val with
    orders := [ordBuyBF, ordSellBF]
    positions := [("alg:AAPL", { posA with quantity := 0 })]
    total_commissions := 23/20 }

theorem scnB1_eq : scnB1 = scnB1Val := by
  norm_num +decide [scnB1, scnB0, mkPortfolio, Portfolio.create_order, optPosOk,
    scnA1Val, scnB1Val, ordBuyA]

theorem scnB2_eq : scnB2 = scnB2Val := by
  norm_num +decide [scnB2, scnB1_eq, Portfolio.execute_order, Portfolio.fill_order,
    Portfolio.update_position, Portfolio.close_position, findEntryOrder, dictGet,
    dictSet, dictDel, keyAlgAAPL, optPosOk, scnA1Val, scnB1Val, scnB2Val,
    ordBuyA, ordBuyBF, posA]

theorem scnB3_eq : scnB3 = scnB3Val := by
  norm_num +decide [scnB3, scnB2_eq, Portfolio.create_order, optPosOk, scnA1Val,
    scnB1Val, scnB2Val, scnB3Val, ordBuyA, ordBuyBF, ordSellA, posA]

theorem scnBRes_eq : scnBRes = (scnBFinal, Except.error PyError.zeroDivision) := by
  norm_num +decide [scnBRes, scnB3_eq, Portfolio.execute_order, Portfolio.fill_order,
    Portfolio.update_position, Portfolio.close_position, findEntryOrder,
    List.reverse_cons, List.reverse_nil, List.nil_append, List.cons_append,
    List.append_nil, List.find?_cons_of_pos, List.find?_cons_of_neg, List.find?_nil,
    dictGet, dictSet, dictDel, keyAlgAAPL, optPosOk,
    scnA1Val, scnB1Val, scnB2Val, scnB3Val, scnBFinal,
    ordBuyA, ordSellA, ordBuyBF, ordSellBF, posA]

/-- Selling with no position: capital $100, zero rates, a sell order for 1
share executed at $10 with an empty position book. -/
def scnC0 : Portfolio := mkPortfolio 100 0 0

def scnC1 : Portfolio :=
  (scnC0.create_order "AAPL" "alg" PositionSide.short 1 OrderType.market Option.none).1

def scnCRes : Portfolio × Except PyError Bool := scnC1.execute_order 0 10

def ordSellC : Order :=
  { order_id := 0
    algorithm_id := "alg"
    symbol := "AAPL"
    order_type := OrderType.market
    side := PositionSide.short
    quantity := 1
    limit_price := Option.none
    filled_price := Option.none
    status := OrderStatus.pending
    commission := 0
    slippage := 0 }

def scnC1Val : Portfolio :=
  { initial_capital := 100
    cash := 100
    commission_rate := 0
    slippage_rate := 0
    positions := []
    orders := [ordSellC]
    trades := []
    peak_value := 100
    total_commissions := 0
    total_slippage := 0 }

def scnCFinal : Portfolio :=
  { scnC1Val with
    cash := 110
    orders := [{ ordSellC with filled_price := some 10, status := OrderStatus.filled }] }

theorem scnC1_eq : scnC1 = scnC1Val := by
  norm_num +decide [scnC1, scnC0, mkPortfolio, Portfolio.create_order, optPosOk,
    scnC1Val, ordSellC]

theorem scnCRes_eq : scnCRes = (scnCFinal, Except.ok true) := by
  norm_num +decide [scnCRes, scnC1_eq, Portfolio.execute_order, Portfolio.fill_order,
    Portfolio.update_position, Portfolio.close_position, dictGet, dictSet, dictDel,
    keyAlgAAPL, optPosOk, scnC1Val, scnCFinal, ordSellC]

/-- A sell executed against a portfolio configured with `commission_rate`
2.0: the fill credits `trade_value - commission = 10 - 20`, driving cash
from $5 to $-5. -/
def scnD0 : Portfolio := mkPortfolio 5 2 0

def scnD1 : Portfolio :=
  (scnD0.create_order "AAPL" "alg" PositionSide.short 1 OrderType.market Option.none).1

def scnDRes : Portfolio × Except PyError Bool := scnD1.execute_order 0 10

def scnD1Val : Portfolio :=
  { scnC1Val with
    initial_capital := 5
    cash := 5
    commission_rate := 2
    peak_value := 5 }

def ordSellDF : Order :=
  { ordSellC with
    filled_price := some 10
    status := OrderStatus.filled
    commission := 20 }

def scnDFinal : Portfolio :=
  { scnD1Val with
    cash := -5
    orders := [ordSellDF]
    total_commissions := 20 }

theorem scnD1_eq : scnD1 = scnD1Val := by
  norm_num +decide [scnD1, scnD0, mkPortfolio, Portfolio.create_order, optPosOk,
    scnC1Val, scnD1Val, ordSellC]

theorem scnDRes_eq : scnDRes = (scnDFinal, Except.ok true) := by
  norm_num +decide [scnDRes, scnD1_eq, Portfolio.execute_order, Portfolio.fill_order,
    Portfolio.update_position, Portfolio.close_position, dictGet, dictSet, dictDel,
    keyAlgAAPL, optPosOk, scnC1Val, scnD1Val, scnDFinal, ordSellC, ordSellDF]

/-- The key-collision scenario: a buy for strategy "a:b" in symbol "c"
lands under the book key "a:b:c". -/
def scnF0 : Portfolio := mkPortfolio 1000 0 0

def scnF1 : Portfolio :=
  (scnF0.create_order "c" "a:b" PositionSide.long 1 OrderType.market Option.none).1

def scnF2 : Portfolio := (scnF1.execute_order 0 10).1

theorem keyABC : posKey "a:b" "c" = "a:b:c" := by decide

def ordF : Order :=
  { order_id := 0
    algorithm_id := "a:b"
    symbol := "c"
    order_type := OrderType.market
    side := PositionSide.long
    quantity := 1
    limit_price := Option.none
    filled_price := Option.none
    status := OrderStatus.pending
    commission := 0
    slippage := 0 }

def posF : Position :=
  { symbol := "c"
    algorithm_id := "a:b"
    side := PositionSide.long
    quantity := 1
    average_price := 10 }

def scnF1Val : Portfolio :=
  { initial_capital := 1000
    cash := 1000
    commission_rate := 0
    slippage_rate := 0
    positions := []
    orders := [ordF]
    trades := []
    peak_value := 1000
    total_commissions := 0
    total_slippage := 0 }

def scnF2Val : Portfolio :=
  { scnF1Val with
    cash := 990
    positions := [("a:b:c", posF)]
    orders := [{ ordF with filled_price := some 10, status := OrderStatus.filled }] }

theorem scnF1_eq : scnF1 = scnF1Val := by
  norm_num +decide [scnF1, scnF0, mkPortfolio, Portfolio.create_order, optPosOk,
    scnF1Val, ordF]

theorem scnF2_eq : scnF2 = scnF2Val := by
  norm_num +decide [scnF2, scnF1_eq, Portfolio.execute_order, Portfolio.fill_order,
    Portfolio.update_position, Portfolio.close_position, dictGet, dictSet, dictDel,
    keyABC, optPosOk, scnF1Val, scnF2Val, ordF, posF]

/-! ## Claim theorems -/

/-- C1: the spec scenario (sell the entire 5-share position at $130 with
zero commission and slippage, entered at average price $100) does NOT
behave as claimed: because `_update_position` decrements the position
quantity to 0 before calling `_close_position`, the close computes its
P&L against quantity 0 and then raises `ZeroDivisionError` from
`pnl_percent`; execution aborts, no trade is recorded (so no trade with
`gross_pnl = 150` and `is_open = false` exists), and the position is not
removed — a zero-quantity position is left in the book. -/
theorem full_close_crashes_and_records_no_trade :
    scnARes.2 = Except.error PyError.zeroDivision ∧
    scnARes.1.trades = [] ∧
    scnARes.1.get_position "AAPL" "alg" = some { posA with quantity := 0 } := by
  refine ⟨?_, ?_, ?_⟩ <;>
    norm_num +decide [scnARes_eq, scnAFinal, scnA3Val, scnA2Val, scnA1Val,
      Portfolio.get_position, dictGet, keyAlgAAPL, posA]

/-- C2: `execute_order` is not atomic.  On the exact-full-close input the
sell order has been marked FILLED and the cumulative commission counter
updated (from 1/2 to 23/20), yet the raise out of `_close_position`
prevents both the cash update (cash stays at the post-buy 999/2) and the
position removal (a zero-quantity position stays in the book): a strict
subset of the side effects is applied. -/
theorem execute_order_not_atomic :
    scnBRes.2 = Except.error PyError.zeroDivision ∧
    (scnBRes.1.orders.get? 1).map Order.status = some OrderStatus.filled ∧
    scnB3.total_commissions = 1/2 ∧
    scnBRes.1.total_commissions = 23/20 ∧
    scnBRes.1.cash = scnB3.cash ∧
    scnBRes.1.get_position "AAPL" "alg" = some { posA with quantity := 0 } := by
  refine ⟨?_, ?_, ?_, ?_, ?_, ?_⟩ <;>
    norm_num +decide [scnBRes_eq, scnB3_eq, scnBFinal, scnB3Val, scnB2Val, scnB1Val,
      scnA1Val, Portfolio.get_position, dictGet, keyAlgAAPL, posA, ordBuyBF,
      ordSellBF, ordBuyA, ordSellA]

/-- C3 counterexample: executing a sell with no existing position is not a
ledger no-op.  With capital $100 and zero rates, selling 1 share at $10
against an empty book returns true and moves cash from $100 to $110: the
ledger state changes, refuting the claim that it is unchanged. -/
theorem sell_without_position_changes_cash :
    scnC1.get_position "AAPL" "alg" = Option.none ∧
    scnC1.cash = 100 ∧
    scnCRes.2 = Except.ok true ∧
    scnCRes.1.cash = 110 := by
  refine ⟨?_, ?_, ?_, ?_⟩ <;>
    norm_num +decide [scnC1_eq, scnCRes_eq, scnCFinal, scnC1Val,
      Portfolio.get_position, dictGet, keyAlgAAPL]

/-- The sell order as `execute_order` fills it at price `p` under slippage
rate `sr` and commission rate `cr` (`portfolio.py` 167-195). -/
def sellFilledOrder (order : Order) (p sr cr : ℚ) : Order :=
  { order with
    filled_price := some (p - p * sr)
    commission := (p - p * sr) * order.quantity * cr
    slippage := p * sr * order.quantity
    status := OrderStatus.filled }

/-- C3 amended: executing a pending market sell for a key with no existing
position logs and is a no-op on the position book and the trade history
only; the order is nonetheless filled, cash increases by
`trade_value - commission`, and the cumulative commission and slippage
counters increase by the order's commission and slippage. -/
theorem sell_without_position_noop_on_book (st : Portfolio) (i : Nat) (order : Order)
    (p : ℚ) (hi : st.orders.get? i = some order)
    (hst : order.status = OrderStatus.pending)
    (hty : order.order_type = OrderType.market)
    (hside : order.side = PositionSide.short)
    (hpos : dictGet st.positions (posKey order.algorithm_id order.symbol) = Option.none) :
    (st.execute_order i p).2 = Except.ok true ∧
    (st.execute_order i p).1.positions = st.positions ∧
    (st.execute_order i p).1.trades = st.trades ∧
    (st.execute_order i p).1.cash = st.cash + ((p - p * st.slippage_rate) * order.quantity -
      (p - p * st.slippage_rate) * order.quantity * st.commission_rate) ∧
    (st.execute_order i p).1.total_commissions = st.total_commissions +
      (p - p * st.slippage_rate) * order.quantity * st.commission_rate ∧
    (st.execute_order i p).1.total_slippage = st.total_slippage +
      p * st.slippage_rate * order.quantity ∧
    (st.execute_order i p).1.orders =
      st.orders.set i (sellFilledOrder order p st.slippage_rate st.commission_rate) := by
  have hnl : ¬order.side = PositionSide.long := by rw [hside]; decide
  have hexec : st.execute_order i p =
      ({ st with
          orders := st.orders.set i (sellFilledOrder order p st.slippage_rate
            st.commission_rate)
          total_commissions := st.total_commissions +
            (p - p * st.slippage_rate) * order.quantity * st.commission_rate
          total_slippage := st.total_slippage + p * st.slippage_rate * order.quantity
          cash := st.cash + ((p - p * st.slippage_rate) * order.quantity -
            (p - p * st.slippage_rate) * order.quantity * st.commission_rate) },
        Except.ok true) := by
    unfold Portfolio.execute_order Portfolio.fill_order Portfolio.update_position
    simp only [hi, hst, hty, hside, sellFilledOrder, hpos, eq_false hnl, false_and,
      if_false, ne_eq, eq_self_iff_true, not_true, if_true, reduceCtorEq,
      eq_false (by decide : ¬PositionSide.short = PositionSide.long)]
  rw [hexec]
  exact ⟨rfl, rfl, rfl, rfl, rfl, rfl, rfl⟩

/-- C3 amended, instantiated: the concrete no-position sell of
`scnC` fills with cash rising to $110 while positions and trades stay
empty. -/
theorem sell_without_position_noop_on_book_witness :
    (scnC1.execute_order 0 10).2 = Except.ok true ∧
    (scnC1.execute_order 0 10).1.positions = scnC1.positions ∧
    (scnC1.execute_order 0 10).1.cash = 110 := by
  obtain ⟨h1, h2, h3, h4, h5, h6, h7⟩ :=
    sell_without_position_noop_on_book scnC1 0 ordSellC 10
      (by rw [scnC1_eq]; rfl) (by decide) (by decide) (by decide)
      (by rw [scnC1_eq]; rfl)
  refine ⟨h1, h2, ?_⟩
  rw [h4, scnC1_eq]
  norm_num [scnC1Val, ordSellC]

/-- C4 counterexample: a portfolio with non-negative initial capital ($5)
whose cash goes negative after a single `create_order`/`execute_order`
pair.  With `commission_rate = 2`, the sell fill credits
`trade_value - commission = 10 - 20 = -10`, overdrawing cash to $-5; the
execution is not rejected (it returns true). -/
theorem cash_can_go_negative :
    0 ≤ scnD0.initial_capital ∧
    scnDRes.2 = Except.ok true ∧
    scnDRes.1.cash < 0 := by
  refine ⟨?_, ?_, ?_⟩ <;>
    norm_num +decide [scnD0, mkPortfolio, scnDRes_eq, scnDFinal, scnD1Val, scnC1Val]

/-- C4 amended: for every portfolio with non-negative cash whose
commission and slippage rates lie in [0, 1], and every sequence of
`create_order`/`execute_order` calls supplying positive prices, cash stays
non-negative after every execution: buys that cash cannot cover are
rejected with cash unchanged, sell proceeds are non-negative, and the
exceptional close path leaves cash untouched. -/
theorem cash_nonneg_of_valid_run (st : Portfolio) (calls : List Call)
    (h : CashInv st) (hc : ∀ c ∈ calls, ValidCall c) :
    0 ≤ (st.run calls).cash :=
  (run_cashInv calls st h hc).1

/-- C4 amended, instantiated on a fresh $100 portfolio with 0.1%
commission and 0.05% slippage running a buy-then-execute sequence. -/
theorem cash_nonneg_of_valid_run_witness :
    0 ≤ ((mkPortfolio 100 (1/1000) (1/2000)).run
      [Call.create "AAPL" "alg" PositionSide.long 1 OrderType.market Option.none,
        Call.exec 0 50]).cash := by
  apply cash_nonneg_of_valid_run
  · refine ⟨by norm_num [mkPortfolio], by norm_num [mkPortfolio],
      by norm_num [mkPortfolio], by norm_num [mkPortfolio], by norm_num [mkPortfolio],
      ?_⟩
    intro o ho
    simp [mkPortfolio] at ho
  · intro c hc
    fin_cases hc
    · exact trivial
    · show (0:ℚ) < 50
      norm_num

/-- C5: limit-order gating in `execute_order` (`portfolio.py` 152-165).
A pending LIMIT order with no limit price is marked REJECTED and the call
returns false; a buy limit with current price above the limit, and a sell
limit with current price below the limit, are not attempted: the call
returns false and the whole ledger state — including the order, which
stays PENDING — is unchanged.  Consequently a buy fills only when
`current_price ≤ limit` and a sell only when `current_price ≥ limit`. -/
theorem limit_order_gating (st : Portfolio) (i : Nat) (order : Order) (p : ℚ)
    (hi : st.orders.get? i = some order)
    (hst : order.status = OrderStatus.pending)
    (hty : order.order_type = OrderType.limit) :
    (order.limit_price = Option.none →
      st.execute_order i p =
        ({ st with orders := st.orders.set i { order with status := OrderStatus.rejected } },
          Except.ok false)) ∧
    (∀ lp, order.limit_price = some lp → order.side = PositionSide.long → lp < p →
      st.execute_order i p = (st, Except.ok false)) ∧
    (∀ lp, order.limit_price = some lp → order.side = PositionSide.short → p < lp →
      st.execute_order i p = (st, Except.ok false)) := by
  refine ⟨?_, ?_, ?_⟩
  · intro hlp
    unfold Portfolio.execute_order
    simp only [hi, hst, hty, hlp, ne_eq, eq_self_iff_true, not_true, if_false, if_true]
  · intro lp hlp hside hlt
    unfold Portfolio.execute_order
    simp only [hi, hst, hty, hlp, hside, ne_eq, eq_self_iff_true, not_true, if_false,
      if_true, true_and]
    rw [if_pos hlt]
  · intro lp hlp hside hlt
    unfold Portfolio.execute_order
    simp only [hi, hst, hty, hlp, hside, ne_eq, eq_self_iff_true, not_true, if_false,
      if_true, true_and,
      eq_false (by decide : ¬PositionSide.short = PositionSide.long), false_and]
    rw [if_pos hlt]

/-- A pending limit buy used to instantiate the limit-order gating
theorem: limit $50, quantity 1. -/
def ordLimE : Order :=
  { order_id := 0
    algorithm_id := "alg"
    symbol := "AAPL"
    order_type := OrderType.limit
    side := PositionSide.long
    quantity := 1
    limit_price := some 50
    filled_price := Option.none
    status := OrderStatus.pending
    commission := 0
    slippage := 0 }

def scnE : Portfolio := { mkPortfolio 100 0 0 with orders := [ordLimE] }

/-- C5 instantiated: a pending $50 buy limit examined at price $60 is left
PENDING with the whole state unchanged and `execute_order` returns
false. -/
theorem limit_order_gating_witness :
    scnE.execute_order 0 60 = (scnE, Except.ok false) :=
  (limit_order_gating scnE 0 ordLimE 60 rfl rfl rfl).2.1 50 rfl rfl (by norm_num)

/-- C6: the net-P&L identity.  Starting from any ledger whose recorded
trades satisfy `net_pnl = gross_pnl - total_commission - total_slippage`
(in particular a fresh portfolio, whose trade history is empty), every
sequence of `create_order`/`execute_order` calls preserves the identity:
the only code that records a trade (`_close_position`) builds it with
`net_pnl = gross_pnl - (entry.commission + exit.commission + entry.slippage
+ exit.slippage)`, `total_commission = entry.commission + exit.commission`
and `total_slippage = entry.slippage + exit.slippage`. -/
theorem net_pnl_identity (st : Portfolio) (calls : List Call) (h : TradesOK st) :
    TradesOK (st.run calls) :=
  run_tradesOK calls st h

/-- C6 instantiated on a fresh portfolio running a buy and its fill. -/
theorem net_pnl_identity_witness :
    TradesOK ((mkPortfolio 1000 0 0).run
      [Call.create "AAPL" "alg" PositionSide.long 5 OrderType.market Option.none,
        Call.exec 0 100]) := by
  apply net_pnl_identity
  intro t ht
  exact absurd ht (List.not_mem_nil t)

/-- C7: executing an order that is already FILLED or REJECTED returns
false and changes nothing — `execute_order` returns `(st, false)` with the
entire ledger state (order history included) untouched. -/
theorem executed_order_is_noop (st : Portfolio) (i : Nat) (order : Order) (p : ℚ)
    (hi : st.orders.get? i = some order)
    (h : order.status = OrderStatus.filled ∨ order.status = OrderStatus.rejected) :
    st.execute_order i p = (st, Except.ok false) := by
  unfold Portfolio.execute_order
  have hi' : st.orders[i]? = some order := by
    rw [← List.get?_eq_getElem?]
    exact hi
  rcases h with h | h <;> simp +decide [hi, hi', h]

def scnG : Portfolio :=
  { mkPortfolio 100 0 0 with orders := [{ ordSellC with status := OrderStatus.filled }] }

/-- C7 instantiated: re-executing a FILLED order is a no-op returning
false. -/
theorem executed_order_is_noop_witness :
    scnG.execute_order 0 10 = (scnG, Except.ok false) :=
  executed_order_is_noop scnG 0 { ordSellC with status := OrderStatus.filled } 10
    rfl (Or.inl rfl)

/-- C8: a sequence of n ≥ 1 buy fills with positive quantities q1..qn at
positive fill prices p1..pn into one (strategy, symbol) key, starting with
no position under that key, yields a position with quantity `Σ qi` and
average price `Σ (qi·pi) / Σ qi`, exactly, in exact rational
arithmetic. -/
theorem average_price_is_weighted_average (symbol algorithm_id : String)
    (l : List (ℚ × ℚ)) (st : Portfolio) (hne : l ≠ [])
    (hl : ∀ x ∈ l, 0 < x.1 ∧ 0 < x.2)
    (h0 : dictGet st.positions (posKey algorithm_id symbol) = Option.none) :
    ∃ pos, dictGet (applyBuys st symbol algorithm_id l).positions
        (posKey algorithm_id symbol) = some pos ∧
      pos.quantity = (l.map Prod.fst).sum ∧
      pos.average_price = (l.map fun x => x.1 * x.2).sum / (l.map Prod.fst).sum := by
  cases l with
  | nil => exact absurd rfl hne
  | cons x xs =>
    have hx := hl x (List.mem_cons_self x xs)
    have hxs : ∀ y ∈ xs, 0 < y.1 := fun y hy => (hl y (List.mem_cons_of_mem x hy)).1
    have hcond : (0:ℚ) ≤ x.1 ∧ (0:ℚ) ≤ x.2 := ⟨hx.1.le, hx.2.le⟩
    have hstep : (st.update_position (buyFill symbol algorithm_id x.1 x.2)).1 =
        { st with positions := (dictSet st.positions (posKey algorithm_id symbol)
            (Position.mk symbol algorithm_id PositionSide.long x.1 x.2)) } := by
      unfold Portfolio.update_position buyFill
      simp only [h0, Option.getD_some, eq_self_iff_true, if_true]
      rw [if_pos hcond]
    have hget1 : dictGet ((st.update_position
        (buyFill symbol algorithm_id x.1 x.2)).1).positions
        (posKey algorithm_id symbol) =
        some (Position.mk symbol algorithm_id PositionSide.long x.1 x.2) := by
      rw [hstep]
      exact dictGet_dictSet_self st.positions _ _
    obtain ⟨pos', hget', hqty, havg⟩ := applyBuys_accum symbol algorithm_id xs hxs
      ((st.update_position (buyFill symbol algorithm_id x.1 x.2)).1) _ hget1 hx.1
    have hq' : pos'.quantity = ((x :: xs).map Prod.fst).sum := by
      rw [hqty]
      simp [List.map_cons, List.sum_cons]
    have ha' : pos'.average_price * pos'.quantity =
        ((x :: xs).map fun y => y.1 * y.2).sum := by
      rw [havg]
      simp only [List.map_cons, List.sum_cons]
      ring
    have hS : (0:ℚ) < ((x :: xs).map Prod.fst).sum := by
      simp only [List.map_cons, List.sum_cons]
      have hxs0 : 0 ≤ (xs.map Prod.fst).sum :=
        List.sum_nonneg fun y hy => by
          obtain ⟨z, hz, rfl⟩ := List.mem_map.1 hy
          exact (hxs z hz).le
      linarith [hx.1]
    refine ⟨pos', ?_, hq', ?_⟩
    · simpa [applyBuys] using hget'
    · rw [eq_div_iff (ne_of_gt hS), ← hq']
      exact ha'

/-- C8 instantiated: buying 1 @ $2 then 3 @ $4 yields quantity 4 and
average price (1·2 + 3·4)/4 = 7/2. -/
theorem average_price_is_weighted_average_witness :
    ∃ pos, dictGet (applyBuys (mkPortfolio 0 0 0) "AAPL" "alg"
        [(1, 2), (3, 4)]).positions (posKey "alg" "AAPL") = some pos ∧
      pos.quantity = 4 ∧ pos.average_price = 7/2 := by
  obtain ⟨pos, h1, h2, h3⟩ := average_price_is_weighted_average "AAPL" "alg"
    [(1, 2), (3, 4)] (mkPortfolio 0 0 0) (by simp)
    (by intro x hx; fin_cases hx <;> norm_num) rfl
  refine ⟨pos, h1, ?_, ?_⟩
  · rw [h2]; norm_num
  · rw [h3]; norm_num

/-- C9: whenever `_close_position` runs on a position whose quantity has
been decremented to exactly 0 (which is what an exact full close produces,
since `_update_position` subtracts the sell quantity in place before the
call) and a matching entry order exists, `pnl_percent`'s denominator
`average_price * quantity` is zero and the Python division raises
`ZeroDivisionError`; on the concrete buy-5-then-sell-5 input,
`execute_order` accordingly does not complete normally. -/
theorem exact_close_divides_by_zero (st : Portfolio) (eo : Order) (pos : Position)
    (hq : pos.quantity = 0)
    (he : (findEntryOrder st.orders pos.symbol pos.algorithm_id).isSome) :
    st.close_position eo pos = (st, some PyError.zeroDivision) ∧
    scnARes.2 = Except.error PyError.zeroDivision := by
  constructor
  · rcases Option.isSome_iff_exists.1 he with ⟨entry, hentry⟩
    unfold Portfolio.close_position
    rw [hentry]
    dsimp only
    rw [hq, mul_zero]
    simp
  · rw [scnARes_eq]

/-- C9 instantiated: closing the stranded zero-quantity position of the
full-close scenario raises the division error again. -/
theorem exact_close_divides_by_zero_witness :
    scnAFinal.close_position
      { ordSellA with filled_price := some 130, status := OrderStatus.filled }
      { posA with quantity := 0 } =
      (scnAFinal, some PyError.zeroDivision) :=
  (exact_close_divides_by_zero scnAFinal
    { ordSellA with filled_price := some 130, status := OrderStatus.filled }
    { posA with quantity := 0 } rfl (by decide)).1

/-- C10: position-book keys are not injective in (strategy, symbol): the
distinct pairs ("a", "b:c") and ("a:b", "c") produce the same key
"a:b:c", and after a fill for strategy "a:b" in symbol "c", `get_position`
returns that very position for the other pair as well. -/
theorem position_key_collision :
    posKey "a" "b:c" = posKey "a:b" "c" ∧
    (("a", "b:c") : String × String) ≠ ("a:b", "c") ∧
    scnF2.get_position "b:c" "a" = some posF ∧
    scnF2.get_position "c" "a:b" = some posF := by
  refine ⟨by decide, by decide, ?_, ?_⟩ <;> (rw [scnF2_eq]; decide)

end PortfolioLedger
